import Mathlib

/-!
Verification development for the parlay-finder repository.

The TypeScript source is shallowly embedded: JS numbers are modelled by ℚ
(the algorithms use only field arithmetic and comparisons), JS strings by
String, `undefined`/`null` by Option.  Display-only artefacts (the
free-text `reason` strings produced by generateLegReason and the reason
strings inside PenaltyBreakdown) are omitted: no property below inspects
them.  `calculateStandardDeviation` returns `Math.sqrt(variance)` in the
source; here `calculateStandardDeviationSq` returns the variance itself.
Square root is strictly monotone on the nonnegative reals, so every
comparison and sort order the source derives from the standard deviation
is identical to the one derived from the variance; no property below
inspects the numeric value of the consistency field.
-/

/-- JS `a || b` on an optional string: `undefined`, `null` and the empty
string are falsy and fall through to `b`. -/
def jsOrStr (a : Option String) (b : String) : String :=
  match a with
  | none => b
  | some s => if s = "" then b else s

/-- JS truthiness of an optional string as an Option: `some t` when the
value is present and nonempty, otherwise `none`. -/
def truthyStr (a : Option String) : Option String :=
  match a with
  | none => none
  | some s => if s = "" then none else some s

/-- JS `Math.round` (half away from zero is actually half toward +∞ in JS):
`Math.round(x) = ⌊x + 1/2⌋`. -/
def jsRound (q : ℚ) : ℤ := ⌊q + 1 / 2⌋

/-- JS `.toUpperCase()` on the (ASCII) position strings the source
compares: uppercase every character. -/
def jsToUpper (s : String) : String := String.mk (s.data.map Char.toUpper)

/-- The five tracked statistic types (the `statType` union of `Leg` in
types.ts). -/
inductive StatType where
  | pass_yards
  | rush_yards
  | rec_yards
  | receptions
  | pass_tds
deriving DecidableEq, Repr, Inhabited

/-- One player-game observation (interface `GameLog` in types.ts).
`dateTime` models `new Date(gameDate).getTime()`, the timestamp the source
computes from `gameDate` for sorting.  The five tracked statistics plus
`rush_attempts`, `targets` and `snaps` are optional numbers. -/
structure GameLog where
  playerId : String
  playerName : Option String := none
  gameDate : String
  dateTime : ℤ
  gameId : Option String := none
  week : Option ℤ := none
  season : Option ℤ := none
  team : Option String := none
  opponent : Option String := none
  position : Option String := none
  snaps : Option ℚ := none
  pass_yards : Option ℚ := none
  rush_yards : Option ℚ := none
  rec_yards : Option ℚ := none
  receptions : Option ℚ := none
  pass_tds : Option ℚ := none
  rush_attempts : Option ℚ := none
  targets : Option ℚ := none
deriving DecidableEq, Repr, Inhabited

/-- Dynamic field access `log[statType]` for the five tracked stats. -/
def GameLog.statGet (l : GameLog) : StatType → Option ℚ
  | .pass_yards => l.pass_yards
  | .rush_yards => l.rush_yards
  | .rec_yards => l.rec_yards
  | .receptions => l.receptions
  | .pass_tds => l.pass_tds

/-- Confidence bands (type `ConfidenceLevel` in types.ts). -/
inductive ConfidenceLevel where
  | Speculative
  | Fair
  | Strong
  | Elite
deriving DecidableEq, Repr, Inhabited

/-- A candidate proposition (interface `Leg` in types.ts).  The
display-only `reason` string is omitted; `consistency` holds the
variance-valued model of the source's standard deviation (see the file
header). -/
structure Leg where
  playerId : String
  playerName : Option String := none
  statType : StatType
  threshold : ℚ
  smoothedProb : ℚ
  rawProb : ℚ
  confidence : ConfidenceLevel := .Speculative
  sampleSize : ℕ
  lastNGameValues : List ℚ := []
  consistency : ℚ := 0
  gameId : Option String := none
  gameDate : Option String := none
  team : Option String := none
  opponent : Option String := none
  position : Option String := none
deriving DecidableEq, Repr, Inhabited

/-- One structural-dependence adjustment (interface `PenaltyBreakdown` in
types.ts); the human-readable reason string is display-only and omitted. -/
structure PenaltyBreakdown where
  type : String
  amount : ℚ
deriving DecidableEq, Repr, Inhabited

/-- A combination of legs (interface `Parlay` in types.ts). -/
structure Parlay where
  legs : List Leg
  estimatedProbability : ℚ
  estProbability : Option ℚ := none
  penaltyBreakdown : Option (List PenaltyBreakdown) := none
deriving DecidableEq, Repr, Inhabited

/-- Eligibility snapshot (interface `PlayerStatus` in types.ts). -/
structure PlayerStatus where
  playerId : String
  team : Option String := none
  isActive : Bool
  isOnBye : Bool
  hasRecentSnaps : Bool
  currentWeek : Option ℤ := none
deriving DecidableEq, Repr, Inhabited

/-! ## Probability engine (source: the leg-generation module, part_005) -/

/-- Source `STAT_THRESHOLDS`: per-statistic candidate thresholds, listed ascending. -/
def STAT_THRESHOLDS : List (StatType × List ℚ) :=
  [ (.pass_yards, [150, 175, 200, 225])
  , (.rush_yards, [25, 40, 50, 60])
  , (.rec_yards, [25, 40, 50, 60])
  , (.receptions, [2, 3, 4, 5])
  , (.pass_tds, [1]) ]

def DEFAULT_MIN_PROBABILITY : ℚ := 80 / 100
def DEFAULT_MIN_SAMPLE_SIZE : ℕ := 6
def DEFAULT_MIN_TOUCHES_PER_GAME : ℚ := 5
def DEFAULT_BETA_A : ℚ := 4
def DEFAULT_BETA_B : ℚ := 2

/-- Source `calculateStandardDeviation`, modelled by the square of its value (the
population variance); see the file header for why this is faithful to
every use the source makes of it. -/
def calculateStandardDeviationSq (values : List ℚ) : ℚ :=
  if values.length = 0 then 0
  else if values.length = 1 then 0
  else
    let mean := values.sum / (values.length : ℚ)
    (values.map (fun v => (v - mean) ^ 2)).sum / (values.length : ℚ)

/-- Source `calculateAverageTouchesPerGame`: role-dependent usage proxy.  QBs get
the sentinel 100; RBs use rush attempts (estimated from rush yards at 4.5
per carry when absent) plus receptions; WRs/TEs use targets, falling back
to receptions; other positions accumulate nothing. -/
def calculateAverageTouchesPerGame (gameLogs : List GameLog) : ℚ :=
  if gameLogs.length = 0 then 0
  else
    let position := (gameLogs.headI.position).map jsToUpper
    if position = some "QB" then 100
    else
      let touchesOf : GameLog → ℚ := fun log =>
        if position = some "RB" then
          (match log.rush_attempts with
           | some ra => ra
           | none => (jsRound ((log.rush_yards.getD 0) / (45 / 10)) : ℚ))
          + log.receptions.getD 0
        else if position = some "WR" ∨ position = some "TE" then
          match log.targets with
          | some t => t
          | none => log.receptions.getD 0
        else 0
      let withData := (gameLogs.map touchesOf).filter (fun t => 0 < t)
      if 0 < withData.length then withData.sum / (withData.length : ℚ) else 0

/-- The defined numeric values a list of logs carries for a statistic
(the `statValues` extraction common to `hasSufficientStatData` and
`calculateProbability`). -/
def statValues (gameLogs : List GameLog) (statType : StatType) : List ℚ :=
  gameLogs.filterMap (fun log => log.statGet statType)

/-- Source `hasSufficientStatData`: at least `minCount` logs carry a numeric value
for the statistic. -/
def hasSufficientStatData (gameLogs : List GameLog) (statType : StatType)
    (minCount : ℕ) : Bool :=
  if gameLogs.length = 0 then false
  else minCount ≤ (statValues gameLogs statType).length

/-- Source `getConfidenceLevel`: band from the smoothed probability, lower edges
inclusive. -/
def getConfidenceLevel (smoothedProb : ℚ) : ConfidenceLevel :=
  if 85 / 100 ≤ smoothedProb then .Elite
  else if 75 / 100 ≤ smoothedProb then .Strong
  else if 65 / 100 ≤ smoothedProb then .Fair
  else .Speculative

/-- Result record of `calculateProbability`. -/
structure ProbResult where
  rawProb : ℚ
  smoothedProb : ℚ
  sampleSize : ℕ
  lastNGameValues : List ℚ
  consistency : ℚ
deriving DecidableEq, Repr, Inhabited

/-- Source `calculateProbability`: raw hit rate k/n and Beta-Binomial smoothed
estimate (k+a)/(n+a+b) over the logs carrying a numeric value for the
statistic. -/
def calculateProbability (gameLogs : List GameLog) (statType : StatType)
    (threshold : ℚ) (betaA : ℚ := DEFAULT_BETA_A) (betaB : ℚ := DEFAULT_BETA_B) :
    ProbResult :=
  if gameLogs.length = 0 then
    ⟨0, 0, 0, [], 0⟩
  else
    let vals := statValues gameLogs statType
    if vals.length = 0 then
      ⟨0, 0, 0, [], 0⟩
    else
      let sampleSize := vals.length
      let countAboveThreshold := (vals.filter (fun v => threshold ≤ v)).length
      { rawProb := (countAboveThreshold : ℚ) / (sampleSize : ℚ)
        smoothedProb := ((countAboveThreshold : ℚ) + betaA) / ((sampleSize : ℚ) + betaA + betaB)
        sampleSize := sampleSize
        lastNGameValues := vals
        consistency := calculateStandardDeviationSq vals }

/-- Comparator of the date-descending sort
`(a, b) => new Date(b.gameDate).getTime() - new Date(a.gameDate).getTime()`:
`a` may precede `b` iff the comparator is ≤ 0 there. -/
def dateDescRel (a b : GameLog) : Prop := b.dateTime ≤ a.dateTime

instance : DecidableRel dateDescRel := fun a b =>
  inferInstanceAs (Decidable (b.dateTime ≤ a.dateTime))

/-- The `sortedLogs` prefix generateLegs works on: logs sorted by date
descending, truncated to the most recent `lastN`. -/
def sortedLogsFor (gameLogs : List GameLog) (lastN : ℕ) : List GameLog :=
  (List.insertionSort dateDescRel gameLogs).take lastN

/-- The acceptance test of generateLegs' inner threshold loop: sample size,
smoothed probability and nonempty values. -/
def legQualifies (sortedLogs : List GameLog) (minProbability : ℚ)
    (minSampleSize : ℕ) (statType : StatType) (threshold : ℚ) : Bool :=
  let r := calculateProbability sortedLogs statType threshold
  minSampleSize ≤ r.sampleSize ∧ minProbability ≤ r.smoothedProb ∧
    r.lastNGameValues ≠ []

/-- Construction of the Leg pushed by generateLegs for an accepted
(statistic, threshold) pair: probabilities and values from
`calculateProbability`, game context from the most recent sorted log. -/
def buildLeg (playerId : String) (playerName : Option String)
    (sortedLogs : List GameLog) (statType : StatType) (threshold : ℚ) : Leg :=
  let r := calculateProbability sortedLogs statType threshold
  let mostRecentLog := sortedLogs.headI
  { playerId := playerId
    playerName := playerName
    statType := statType
    threshold := threshold
    smoothedProb := r.smoothedProb
    rawProb := r.rawProb
    confidence := getConfidenceLevel r.smoothedProb
    sampleSize := r.sampleSize
    lastNGameValues := r.lastNGameValues
    consistency := r.consistency
    gameId := mostRecentLog.gameId
    gameDate := some mostRecentLog.gameDate
    team := mostRecentLog.team
    opponent := mostRecentLog.opponent
    position := mostRecentLog.position }

/-- Comparator of generateLegs' final sort: `a` may precede `b` iff
`(b.smoothedProb !== a.smoothedProb ? b.smoothedProb - a.smoothedProb :
a.consistency - b.consistency) ≤ 0`, i.e. smoothed probability descending,
ties by consistency ascending. -/
def legSortRel (a b : Leg) : Prop :=
  b.smoothedProb < a.smoothedProb ∨
    (b.smoothedProb = a.smoothedProb ∧ a.consistency ≤ b.consistency)

instance : DecidableRel legSortRel := fun a b =>
  inferInstanceAs (Decidable (b.smoothedProb < a.smoothedProb ∨
    (b.smoothedProb = a.smoothedProb ∧ a.consistency ≤ b.consistency)))

/-- The per-statistic loop body of generateLegs: skip a statistic without
4 numeric values, otherwise accept the first threshold (the source loop
breaks on acceptance) passing the `legQualifies` filter. -/
def legsForStats (playerId : String) (playerName : Option String)
    (sortedLogs : List GameLog) (minProbability : ℚ) (minSampleSize : ℕ) :
    List Leg :=
  STAT_THRESHOLDS.filterMap (fun p =>
    if hasSufficientStatData sortedLogs p.1 4 then
      ((p.2.find? (legQualifies sortedLogs minProbability minSampleSize p.1)).map
        (buildLeg playerId playerName sortedLogs p.1))
    else none)

/-- Source `generateLegs`: sort and truncate the logs, apply the usage filter,
then per statistic (in declaration order) accept the first threshold whose
sample size and smoothed probability clear the bars; finally sort the
legs. -/
def generateLegs (playerId : String) (playerName : Option String)
    (gameLogs : List GameLog) (lastN : ℕ)
    (minProbability : ℚ := DEFAULT_MIN_PROBABILITY)
    (minSampleSize : ℕ := DEFAULT_MIN_SAMPLE_SIZE)
    (minTouchesPerGame : ℚ := DEFAULT_MIN_TOUCHES_PER_GAME) : List Leg :=
  if calculateAverageTouchesPerGame (sortedLogsFor gameLogs lastN) <
      minTouchesPerGame then []
  else
    List.insertionSort legSortRel
      (legsForStats playerId playerName (sortedLogsFor gameLogs lastN)
        minProbability minSampleSize)

/-! ## Parlay combination and correlation-penalty engine (source: lib/cache.ts) -/

/-- Source `ParlayOptions` (the fields `generateParlays` consumes). -/
structure ParlayOptions where
  legCount : Option ℤ := none
  singleGame : Option Bool := none
  gameId : Option String := none
  minLegProb : Option ℚ := none
  allowSameGame : Option Bool := none
  allowSameTeamStack : Option Bool := none
deriving DecidableEq, Repr, Inhabited

/-- Source `isQBPassingYards`: a QB passing-yards leg. -/
def isQBPassingYards (leg : Leg) : Bool :=
  leg.statType = StatType.pass_yards ∧ leg.position.map jsToUpper = some "QB"

/-- Source `isWRTEReceivingYards`: a WR/TE receiving-yards leg. -/
def isWRTEReceivingYards (leg : Leg) : Bool :=
  let position := leg.position.map jsToUpper
  leg.statType = StatType.rec_yards ∧ (position = some "WR" ∨ position = some "TE")

/-- Source `violatesSameTeamStack`: a same-team QB-pass / WR-TE-rec pair when
stacking is disallowed.  A missing or empty team string is falsy in the
source's `!leg1.team || !leg2.team` guard. -/
def violatesSameTeamStack (leg1 leg2 : Leg) (allowSameTeamStack : Bool) : Bool :=
  if allowSameTeamStack then false
  else
    match truthyStr leg1.team, truthyStr leg2.team with
    | some t1, some t2 =>
        if t1 ≠ t2 then false
        else
          (isQBPassingYards leg1 ∧ isWRTEReceivingYards leg2) ∨
          (isQBPassingYards leg2 ∧ isWRTEReceivingYards leg1)
    | _, _ => false

/-- The game key of a leg: `leg.gameId || leg.gameDate || 'unknown'`. -/
def gameKey (leg : Leg) : String :=
  jsOrStr leg.gameId (jsOrStr leg.gameDate "unknown")

/-- The duplicate-game loop of `isValidParlay`: walking the legs with the
set of game keys already counted, fail as soon as a key repeats. -/
def noDupGameKeysFrom : List Leg → List String → Bool
  | [], _ => true
  | leg :: rest, seen =>
      let k := gameKey leg
      if k ∈ seen then false else noDupGameKeysFrom rest (k :: seen)

/-- The pairwise double loop of `isValidParlay`'s stacking check. -/
def anyPairViolatesStack : List Leg → Bool → Bool
  | [], _ => false
  | leg :: rest, allow =>
      rest.any (fun other => violatesSameTeamStack leg other allow) ||
        anyPairViolatesStack rest allow

/-- Source `isValidParlay`: exact leg count, distinct players, no duplicate game
(unless allowed), no same-team stack (unless allowed). -/
def isValidParlay (legs : List Leg) (legCount : ℕ) (allowSameGame : Bool)
    (allowSameTeamStack : Bool) : Bool :=
  if legs.length ≠ legCount then false
  else if ¬ (legs.map (fun leg => leg.playerId)).Nodup then false
  else if ¬ allowSameGame ∧ ¬ noDupGameKeysFrom legs [] then false
  else if ¬ allowSameTeamStack ∧ anyPairViolatesStack legs allowSameTeamStack then
    false
  else true

/-- Source `calculateParlayProbability`: product of the legs' smoothed
probabilities. -/
def calculateParlayProbability (legs : List Leg) : ℚ :=
  legs.foldl (fun product leg => product * leg.smoothedProb) 1

/-- One step of building an insertion-ordered count map (models the JS
`Map` of counts, whose iteration order is first-insertion order). -/
def bumpCount (counts : List (String × ℕ)) (key : String) : List (String × ℕ) :=
  if counts.any (fun p => p.1 = key) then
    counts.map (fun p => if p.1 = key then (p.1, p.2 + 1) else p)
  else counts ++ [(key, 1)]

/-- The per-game leg counts of `calculateParlayPenalties`. -/
def gameCountsOf (legs : List Leg) : List (String × ℕ) :=
  legs.foldl (fun counts leg => bumpCount counts (gameKey leg)) []

/-- The per-team leg counts of `calculateParlayPenalties` (only truthy
teams are counted). -/
def teamCountsOf (legs : List Leg) : List (String × ℕ) :=
  legs.foldl (fun counts leg =>
    match truthyStr leg.team with
    | some t => bumpCount counts t
    | none => counts) []

/-- One step of building the insertion-ordered team → legs grouping. -/
def bumpTeamLegs (groups : List (String × List Leg)) (team : String)
    (leg : Leg) : List (String × List Leg) :=
  if groups.any (fun p => p.1 = team) then
    groups.map (fun p => if p.1 = team then (p.1, p.2 ++ [leg]) else p)
  else groups ++ [(team, [leg])]

/-- The `teamLegs` grouping of `calculateParlayPenalties`. -/
def teamLegsOf (legs : List Leg) : List (String × List Leg) :=
  legs.foldl (fun groups leg =>
    match truthyStr leg.team with
    | some t => bumpTeamLegs groups t leg
    | none => groups) []

/-- The same-game penalty entries: one per game key with more than one
leg, amount 1 − 0.9^(count−1). -/
def sameGamePenalties (legs : List Leg) : List PenaltyBreakdown :=
  ((gameCountsOf legs).filter (fun p => 1 < p.2)).map
    (fun p => ⟨"same_game", 1 - (9 / 10 : ℚ) ^ (p.2 - 1)⟩)

/-- The same-team penalty entries: one per team with more than one leg,
amount 1 − 0.95^(count−1). -/
def sameTeamPenalties (legs : List Leg) : List PenaltyBreakdown :=
  ((teamCountsOf legs).filter (fun p => 1 < p.2)).map
    (fun p => ⟨"same_team", 1 - (95 / 100 : ℚ) ^ (p.2 - 1)⟩)

/-- The QB/WR-stack penalty entries: one flat 0.15 entry per team whose
group holds both a QB passing-yards leg and a WR/TE receiving-yards leg. -/
def qbWrStackPenalties (legs : List Leg) : List PenaltyBreakdown :=
  ((teamLegsOf legs).filter (fun p =>
      p.2.any isQBPassingYards ∧ p.2.any isWRTEReceivingYards)).map
    (fun _ => ⟨"qb_wr_stack", 15 / 100⟩)

/-- The combined running multiplier of `calculateParlayPenalties`:
0.9^(extra same-game legs) · 0.95^(extra same-team legs) · 0.85 per
QB/WR stack, accumulated in source order. -/
def penaltyMultiplier (legs : List Leg) : ℚ :=
  (((gameCountsOf legs).filter (fun p => 1 < p.2)).foldl
      (fun m p => m * (9 / 10 : ℚ) ^ (p.2 - 1)) 1)
    * (((teamCountsOf legs).filter (fun p => 1 < p.2)).foldl
        (fun m p => m * (95 / 100 : ℚ) ^ (p.2 - 1)) 1)
    * (((teamLegsOf legs).filter (fun p =>
          p.2.any isQBPassingYards ∧ p.2.any isWRTEReceivingYards)).foldl
        (fun m _ => m * (85 / 100 : ℚ)) 1)

/-- Result of `calculateParlayPenalties`. -/
structure PenaltyResult where
  adjustedProbability : ℚ
  penalties : List PenaltyBreakdown
deriving DecidableEq, Repr, Inhabited

/-- Source `calculateParlayPenalties`: base probability times the accumulated
penalty multipliers, floored at zero, with the penalty entries pushed in
source order (same-game, then same-team, then QB/WR stack). -/
def calculateParlayPenalties (legs : List Leg) : PenaltyResult :=
  let baseProbability := calculateParlayProbability legs
  let adjustedProbability := baseProbability * penaltyMultiplier legs
  { adjustedProbability := max adjustedProbability 0
    penalties :=
      sameGamePenalties legs ++ sameTeamPenalties legs ++ qbWrStackPenalties legs }

/-- The recursive combination enumeration of `generateParlays` (choose
`size` elements, indices increasing, in the source's lexicographic
order). -/
def generateCombinations : List Leg → ℕ → List (List Leg)
  | _, 0 => [[]]
  | [], _ + 1 => []
  | leg :: rest, size + 1 =>
      ((generateCombinations rest size).map (fun c => leg :: c)) ++
        generateCombinations rest (size + 1)

/-- Unweighted mean of the legs' smoothed probabilities (`avgLegProb`). -/
def avgLegProb (legs : List Leg) : ℚ :=
  (legs.foldl (fun sum leg => sum + leg.smoothedProb) 0) / (legs.length : ℚ)

/-- Comparator of `generateParlays`' final sort: adjusted probability
(`estProbability`, always set on generated parlays; `getD 0` models the
source's non-null assertion) descending, ties by average leg smoothed
probability descending.  The second component carries `_avgLegProb`. -/
def parlaySortRel (a b : Parlay × ℚ) : Prop :=
  b.1.estProbability.getD 0 < a.1.estProbability.getD 0 ∨
    (b.1.estProbability.getD 0 = a.1.estProbability.getD 0 ∧ b.2 ≤ a.2)

instance : DecidableRel parlaySortRel := fun a b =>
  inferInstanceAs (Decidable (b.1.estProbability.getD 0 < a.1.estProbability.getD 0 ∨
    (b.1.estProbability.getD 0 = a.1.estProbability.getD 0 ∧ b.2 ≤ a.2)))

/-- The leg-count clamp of `generateParlays`:
`Math.max(2, Math.min(8, options.legCount ?? 3))`. -/
def legCountOf (options : ParlayOptions) : ℕ :=
  (max 2 (min 8 (options.legCount.getD 3))).toNat

/-- The allow-same-game resolution of `generateParlays`: single-game mode
forces it true, otherwise the option defaults to false. -/
def allowSameGameOf (options : ParlayOptions) : Bool :=
  if options.singleGame.getD false then true else options.allowSameGame.getD false

/-- The candidate filtering of `generateParlays`: minimum smoothed leg
probability (default 0.80), then gameId restriction in single-game mode
(only when the gameId option is truthy). -/
def filteredLegsFor (candidateLegs : List Leg) (options : ParlayOptions) :
    List Leg :=
  let filteredLegs := candidateLegs.filter
    (fun leg => options.minLegProb.getD (80 / 100) ≤ leg.smoothedProb)
  if options.singleGame.getD false ∧ (truthyStr options.gameId).isSome then
    filteredLegs.filter (fun leg => leg.gameId = options.gameId)
  else filteredLegs

/-- The Parlay record `generateParlays` pushes for a valid combination. -/
def parlayOf (current : List Leg) : Parlay :=
  { legs := current
    estimatedProbability := (calculateParlayPenalties current).adjustedProbability
    estProbability := some (calculateParlayPenalties current).adjustedProbability
    penaltyBreakdown :=
      if (calculateParlayPenalties current).penalties.length > 0 then
        some (calculateParlayPenalties current).penalties
      else none }

/-- Source `generateParlays`: clamp the leg count to [2,8], resolve option
defaults (single-game mode forces allowSameGame), filter candidates,
enumerate size-legCount combinations, keep the valid ones as
penalty-adjusted parlays, pair each with its average leg probability,
sort, and strip the pairing. -/
def generateParlays (candidateLegs : List Leg)
    (options : ParlayOptions := {}) : List Parlay :=
  let parlays := ((generateCombinations (filteredLegsFor candidateLegs options)
      (legCountOf options)).filter
    (fun current =>
      isValidParlay current (legCountOf options) (allowSameGameOf options)
        (options.allowSameTeamStack.getD false))).map parlayOf
  (List.insertionSort parlaySortRel
      (parlays.map (fun parlay => (parlay, avgLegProb parlay.legs)))).map
    (fun p => p.1)

/-- Source `getTopParlays`: full enumeration and sort, then truncation to the
first `topN`. -/
def getTopParlays (candidateLegs : List Leg) (topN : ℕ := 20)
    (options : ParlayOptions := {}) : List Parlay :=
  (generateParlays candidateLegs options).take topN

/-! ## Activity filter (source: lib/cache.ts) -/

/-- Source `getByeWeekTeams`: teams appearing somewhere in the log set but with
no log at the given week/season. -/
def getByeWeekTeams (gameLogs : List GameLog) (week : ℤ) (season : ℤ) :
    List String :=
  let teamsWithGames := (gameLogs.filterMap (fun log =>
    if log.week = some week ∧ log.season = some season then truthyStr log.team
    else none)).dedup
  let allTeams := (gameLogs.filterMap (fun log => truthyStr log.team)).dedup
  allTeams.filter (fun team => team ∉ teamsWithGames)

/-- Source `hasSnapsInLastNGames`: the player's `n` most recent games by date all
carry a defined positive snap count; fewer than `n` games is false. -/
def hasSnapsInLastNGames (gameLogs : List GameLog) (playerId : String)
    (n : ℕ := 2) : Bool :=
  let sortedLogs := ((List.insertionSort dateDescRel
    (gameLogs.filter (fun log => log.playerId = playerId))).take n)
  if sortedLogs.length < n then false
  else sortedLogs.all (fun log =>
    match log.snaps with
    | some s => 0 < s
    | none => false)

/-- Source `isPlayerActive`: active = not on bye and has recent snaps; a player
with no logs is inactive with both flags false. -/
def isPlayerActive (gameLogs : List GameLog) (playerId : String)
    (currentWeek : ℤ) (season : ℤ) : PlayerStatus :=
  let playerLogs := gameLogs.filter (fun log => log.playerId = playerId)
  if playerLogs.length = 0 then
    { playerId := playerId
      isActive := false
      isOnBye := false
      hasRecentSnaps := false
      currentWeek := some currentWeek }
  else
    let team := playerLogs.headI.team
    let byeWeekTeams := getByeWeekTeams gameLogs currentWeek season
    let isOnBye : Bool :=
      match truthyStr team with
      | some t => t ∈ byeWeekTeams
      | none => false
    let hasRecentSnaps := hasSnapsInLastNGames gameLogs playerId 2
    { playerId := playerId
      team := team
      isActive := !isOnBye && hasRecentSnaps
      isOnBye := isOnBye
      hasRecentSnaps := hasRecentSnaps
      currentWeek := some currentWeek }

/-! ## Stat normalizer (source: normalizeGameLog in the leg-generation module) -/

/-- A raw game-log stat field as JS sees it: `none` = key absent,
`some none` = key present but null/undefined, `some (some v)` = numeric
value.  `normalizeGameLog` distinguishes absence (`'key' in obj`) from
null, so raw records need all three states. -/
abbrev RawStat := Option (Option ℚ)

/-- The stat-bearing portion of a raw game-log record: the five canonical
fields plus the six alternate source field names of `statMappings` (`rec_alt` models
the source key `rec`, which Lean reserves for recursors).
Non-stat fields pass through `normalizeGameLog` untouched and are
irrelevant to its contract, so they are not modelled here. -/
structure RawLog where
  pass_yards : RawStat := none
  rush_yards : RawStat := none
  rec_yards : RawStat := none
  receptions : RawStat := none
  pass_tds : RawStat := none
  passing_yards : RawStat := none
  rushing_yards : RawStat := none
  receiving_yards : RawStat := none
  rec_alt : RawStat := none
  passing_tds : RawStat := none
  pass_td : RawStat := none
deriving DecidableEq, Repr, Inhabited

/-- One `statMappings` step: if the alternate key is present and the
canonical key is absent or null, the canonical key takes the alternate's
value (which may itself be null); a present, non-null canonical value is
kept. -/
def mapStat (alt std : RawStat) : RawStat :=
  match alt with
  | none => std
  | some av =>
      match std with
      | some (some v) => some (some v)
      | _ => some av

/-- The zero-fill pass: a canonical field still absent or null becomes 0. -/
def zeroFill (std : RawStat) : RawStat :=
  match std with
  | some (some v) => some (some v)
  | _ => some (some 0)

/-- Source `normalizeGameLog`: apply the alternate-key mappings in `statMappings`
declaration order (`passing_yards`, `rushing_yards`, `receiving_yards`,
`rec`, `passing_tds`, `pass_td` — the last two both target `pass_tds`,
sequentially), then default the five canonical fields to 0.  The alternate
keys are never targets of a mapping, so reading them from the input record
is exact. -/
def normalizeGameLog (raw : RawLog) : RawLog :=
  let r1 := { raw with pass_yards := mapStat raw.passing_yards raw.pass_yards }
  let r2 := { r1 with rush_yards := mapStat raw.rushing_yards r1.rush_yards }
  let r3 := { r2 with rec_yards := mapStat raw.receiving_yards r2.rec_yards }
  let r4 := { r3 with receptions := mapStat raw.rec_alt r3.receptions }
  let r5 := { r4 with pass_tds := mapStat raw.passing_tds r4.pass_tds }
  let r6 := { r5 with pass_tds := mapStat raw.pass_td r5.pass_tds }
  { r6 with
    pass_yards := zeroFill r6.pass_yards
    rush_yards := zeroFill r6.rush_yards
    rec_yards := zeroFill r6.rec_yards
    receptions := zeroFill r6.receptions
    pass_tds := zeroFill r6.pass_tds }

/-- A raw stat field that is absent or null (the condition under which
`normalizeGameLog` may write to a canonical field). -/
def absentOrNull (x : RawStat) : Prop := x = none ∨ x = some none

/-! ## Helper lemmas -/

lemma filter_type_of_map_eq {α : Type} (s : String) (g : α → ℚ) (L : List α) :
    (L.map (fun a => ({ type := s, amount := g a } : PenaltyBreakdown))).filter
      (fun pb => pb.type = s) =
      L.map (fun a => ({ type := s, amount := g a } : PenaltyBreakdown)) := by
  induction L with
  | nil => rfl
  | cons a L ih => simp [ih]

lemma filter_type_of_map_ne {α : Type} (s t : String) (h : t ≠ s) (g : α → ℚ)
    (L : List α) :
    (L.map (fun a => ({ type := t, amount := g a } : PenaltyBreakdown))).filter
      (fun pb => pb.type = s) = [] := by
  induction L with
  | nil => rfl
  | cons a L ih => simp [ih, h]

lemma foldl_bound {α : Type} (step : ℚ → α → ℚ) (L : List α)
    (hstep : ∀ (m : ℚ) (a : α), a ∈ L → 0 ≤ m → 0 ≤ step m a ∧ step m a ≤ m) :
    ∀ acc : ℚ, 0 ≤ acc → 0 ≤ L.foldl step acc ∧ L.foldl step acc ≤ acc := by
  induction L with
  | nil => exact fun acc hacc => ⟨hacc, le_refl acc⟩
  | cons a L ih =>
    intro acc hacc
    have ha := hstep acc a (List.mem_cons_self a L) hacc
    have hr := ih (fun m x hx hm => hstep m x (List.mem_cons_of_mem a hx) hm)
      (step acc a) ha.1
    exact ⟨hr.1, le_trans hr.2 ha.2⟩

lemma calculateParlayProbability_bounds (legs : List Leg)
    (h : ∀ l ∈ legs, 0 ≤ l.smoothedProb ∧ l.smoothedProb ≤ 1) :
    0 ≤ calculateParlayProbability legs ∧ calculateParlayProbability legs ≤ 1 := by
  unfold calculateParlayProbability
  refine foldl_bound _ legs ?_ 1 (by norm_num)
  intro m a ha hm
  exact ⟨mul_nonneg hm (h a ha).1, mul_le_of_le_one_right hm (h a ha).2⟩

lemma penaltyMultiplier_bounds (legs : List Leg) :
    0 ≤ penaltyMultiplier legs ∧ penaltyMultiplier legs ≤ 1 := by
  have h1 := foldl_bound (fun m p => m * (9 / 10 : ℚ) ^ (p.2 - 1))
    ((gameCountsOf legs).filter (fun p => 1 < p.2))
    (fun m p _ hm => ⟨mul_nonneg hm (pow_nonneg (by norm_num) _),
      mul_le_of_le_one_right hm (pow_le_one₀ (by norm_num) (by norm_num))⟩)
    1 (by norm_num)
  have h2 := foldl_bound (fun m p => m * (95 / 100 : ℚ) ^ (p.2 - 1))
    ((teamCountsOf legs).filter (fun p => 1 < p.2))
    (fun m p _ hm => ⟨mul_nonneg hm (pow_nonneg (by norm_num) _),
      mul_le_of_le_one_right hm (pow_le_one₀ (by norm_num) (by norm_num))⟩)
    1 (by norm_num)
  have h3 := foldl_bound (fun m (_ : String × List Leg) => m * (85 / 100 : ℚ))
    ((teamLegsOf legs).filter (fun p =>
      p.2.any isQBPassingYards ∧ p.2.any isWRTEReceivingYards))
    (fun m p _ hm => ⟨mul_nonneg hm (by norm_num),
      mul_le_of_le_one_right hm (by norm_num)⟩)
    1 (by norm_num)
  unfold penaltyMultiplier
  constructor
  · exact mul_nonneg (mul_nonneg h1.1 h2.1) h3.1
  · have hab := le_trans (mul_le_of_le_one_right h1.1 h2.2) h1.2
    exact le_trans (mul_le_of_le_one_right (mul_nonneg h1.1 h2.1) h3.2) hab

/-! ## Claims -/

/-- C1: on any game-log sequence carrying at least one numeric value for
the statistic (as is always the case when generateLegs invokes it, behind
its 4-value data-sufficiency gate), calculateProbability reports the raw
probability exactly k/n and the smoothed probability exactly
(k+4)/(n+6), where n is the number of logs with a numeric value for the
statistic and k the number of those at or above the threshold. -/
theorem c1_calculateProbability_exact_ratios (gameLogs : List GameLog)
    (st : StatType) (threshold : ℚ)
    (h : 0 < (statValues gameLogs st).length) :
    (calculateProbability gameLogs st threshold).rawProb =
      (((statValues gameLogs st).filter (fun v => threshold ≤ v)).length : ℚ) /
        ((statValues gameLogs st).length : ℚ) ∧
    (calculateProbability gameLogs st threshold).smoothedProb =
      ((((statValues gameLogs st).filter (fun v => threshold ≤ v)).length : ℚ) + 4) /
        (((statValues gameLogs st).length : ℚ) + 6) := by
  have hlogs : ¬ gameLogs.length = 0 := by
    intro h0
    rw [List.length_eq_zero.mp h0] at h
    simp [statValues] at h
  have hvals : ¬ (statValues gameLogs st).length = 0 := h.ne'
  unfold calculateProbability
  rw [if_neg hlogs, if_neg hvals]
  refine ⟨rfl, ?_⟩
  show _ = _
  unfold DEFAULT_BETA_A DEFAULT_BETA_B
  ring_nf

def c1Logs : List GameLog :=
  [ { playerId := "p1", gameDate := "2024-11-10", dateTime := 6,
      position := some "WR", rec_yards := some 80 }
  , { playerId := "p1", gameDate := "2024-11-03", dateTime := 5,
      position := some "WR", rec_yards := some 60 }
  , { playerId := "p1", gameDate := "2024-10-27", dateTime := 4,
      position := some "WR", rec_yards := some 55 }
  , { playerId := "p1", gameDate := "2024-10-20", dateTime := 3,
      position := some "WR", rec_yards := some 40 }
  , { playerId := "p1", gameDate := "2024-10-13", dateTime := 2,
      position := some "WR", rec_yards := some 30 }
  , { playerId := "p1", gameDate := "2024-10-06", dateTime := 1,
      position := some "WR", rec_yards := some 20 } ]

/-- Witness for C1: the spec's own receiving-yards scenario (values
80/60/55/40/30/20, threshold 40). -/
theorem c1_calculateProbability_exact_ratios_witness :
    0 < (statValues c1Logs .rec_yards).length ∧
    ((calculateProbability c1Logs .rec_yards 40).rawProb =
      (((statValues c1Logs .rec_yards).filter (fun v => (40:ℚ) ≤ v)).length : ℚ) /
        ((statValues c1Logs .rec_yards).length : ℚ) ∧
    (calculateProbability c1Logs .rec_yards 40).smoothedProb =
      ((((statValues c1Logs .rec_yards).filter (fun v => (40:ℚ) ≤ v)).length : ℚ) + 4) /
        (((statValues c1Logs .rec_yards).length : ℚ) + 6)) :=
  ⟨by decide, c1_calculateProbability_exact_ratios c1Logs .rec_yards 40 (by decide)⟩

def c2LegA : Leg :=
  { playerId := "p1"
    statType := .rush_yards
    threshold := 25
    smoothedProb := 80 / 100
    rawProb := 1
    sampleSize := 6
    gameId := some "g1" }

def c2LegB : Leg :=
  { playerId := "p2"
    statType := .receptions
    threshold := 2
    smoothedProb := 75 / 100
    rawProb := 1
    sampleSize := 6
    gameId := some "g1" }

/-- C2: the penalty entries of type "same_game" recorded by
calculateParlayPenalties are exactly one per game key shared by more than
one leg, with amount 1 − 0.9^(count−1); on the spec scenario (two legs
with smoothed probabilities 0.80 and 0.75, same gameId, no shared team),
the base probability is 0.60, the adjusted probability is 0.54, and the
penalties list is exactly one "same_game" entry. -/
theorem c2_same_game_penalty (legs : List Leg) :
    ((calculateParlayPenalties legs).penalties.filter
        (fun pb => pb.type = "same_game")) =
      ((gameCountsOf legs).filter (fun p => 1 < p.2)).map
        (fun p => { type := "same_game", amount := 1 - (9 / 10 : ℚ) ^ (p.2 - 1) }) ∧
    calculateParlayProbability [c2LegA, c2LegB] = 60 / 100 ∧
    (calculateParlayPenalties [c2LegA, c2LegB]).adjustedProbability = 54 / 100 ∧
    (calculateParlayPenalties [c2LegA, c2LegB]).penalties =
      [{ type := "same_game", amount := 1 / 10 }] := by
  refine ⟨?_, ?_, ?_, ?_⟩
  · show (sameGamePenalties legs ++ sameTeamPenalties legs ++
      qbWrStackPenalties legs).filter (fun pb => pb.type = "same_game") = _
    rw [List.filter_append, List.filter_append]
    unfold sameGamePenalties sameTeamPenalties qbWrStackPenalties
    rw [filter_type_of_map_eq,
      filter_type_of_map_ne "same_game" "same_team" (by decide),
      filter_type_of_map_ne "same_game" "qb_wr_stack" (by decide)]
    simp
  · norm_num [calculateParlayProbability, c2LegA, c2LegB]
  · norm_num [calculateParlayPenalties, calculateParlayProbability, penaltyMultiplier,
      gameCountsOf, teamCountsOf, teamLegsOf, bumpCount, bumpTeamLegs, gameKey,
      jsOrStr, truthyStr, c2LegA, c2LegB]
  · norm_num [calculateParlayPenalties, sameGamePenalties, sameTeamPenalties,
      qbWrStackPenalties, gameCountsOf, teamCountsOf, teamLegsOf, bumpCount,
      bumpTeamLegs, gameKey, jsOrStr, truthyStr, c2LegA, c2LegB]

/-- C10: when every leg's smoothed probability lies in [0,1], the adjusted
probability returned by calculateParlayPenalties lies between 0 and the
base probability (the product of the legs' smoothed probabilities):
penalties only ever shrink the joint estimate. -/
theorem c10_penalties_only_decrease (legs : List Leg)
    (h : ∀ l ∈ legs, 0 ≤ l.smoothedProb ∧ l.smoothedProb ≤ 1) :
    0 ≤ (calculateParlayPenalties legs).adjustedProbability ∧
    (calculateParlayPenalties legs).adjustedProbability ≤
      calculateParlayProbability legs := by
  have hbase := calculateParlayProbability_bounds legs h
  have hmult := penaltyMultiplier_bounds legs
  show 0 ≤ max (calculateParlayProbability legs * penaltyMultiplier legs) 0 ∧
    max (calculateParlayProbability legs * penaltyMultiplier legs) 0 ≤
      calculateParlayProbability legs
  constructor
  · exact le_max_right _ 0
  · exact max_le (mul_le_of_le_one_right hbase.1 hmult.2) hbase.1

/-- Witness for C10: the C2 scenario legs have smoothed probabilities in
[0,1]. -/
theorem c10_penalties_only_decrease_witness :
    (∀ l ∈ [c2LegA, c2LegB], 0 ≤ l.smoothedProb ∧ l.smoothedProb ≤ 1) ∧
    (0 ≤ (calculateParlayPenalties [c2LegA, c2LegB]).adjustedProbability ∧
      (calculateParlayPenalties [c2LegA, c2LegB]).adjustedProbability ≤
        calculateParlayProbability [c2LegA, c2LegB]) :=
  ⟨by norm_num [c2LegA, c2LegB],
    c10_penalties_only_decrease [c2LegA, c2LegB] (by norm_num [c2LegA, c2LegB])⟩

lemma mapStat_of_value (alt : RawStat) (v : ℚ) :
    mapStat alt (some (some v)) = some (some v) := by
  cases alt <;> rfl

lemma mapStat_of_alt_value {std : RawStat} (v : ℚ) (h : absentOrNull std) :
    mapStat (some (some v)) std = some (some v) := by
  rcases h with h | h <;> subst h <;> rfl

lemma mapStat_absentOrNull {alt std : RawStat} (hstd : absentOrNull std)
    (halt : absentOrNull alt) : absentOrNull (mapStat alt std) := by
  rcases halt with h | h <;> subst h
  · exact hstd
  · rcases hstd with h | h <;> subst h <;> exact Or.inr rfl

lemma zeroFill_value (v : ℚ) : zeroFill (some (some v)) = some (some v) := rfl

lemma zeroFill_defined (x : RawStat) : ∃ q, zeroFill x = some (some q) := by
  match x with
  | some (some v) => exact ⟨v, rfl⟩
  | some none => exact ⟨0, rfl⟩
  | none => exact ⟨0, rfl⟩

lemma zeroFill_of_absentOrNull {x : RawStat} (h : absentOrNull x) :
    zeroFill x = some (some 0) := by
  rcases h with h | h <;> subst h <;> rfl

lemma normalize_pass_yards (raw : RawLog) :
    (normalizeGameLog raw).pass_yards = zeroFill (mapStat raw.passing_yards raw.pass_yards) := rfl

lemma normalize_rush_yards (raw : RawLog) :
    (normalizeGameLog raw).rush_yards = zeroFill (mapStat raw.rushing_yards raw.rush_yards) := rfl

lemma normalize_rec_yards (raw : RawLog) :
    (normalizeGameLog raw).rec_yards = zeroFill (mapStat raw.receiving_yards raw.rec_yards) := rfl

lemma normalize_receptions (raw : RawLog) :
    (normalizeGameLog raw).receptions = zeroFill (mapStat raw.rec_alt raw.receptions) := rfl

lemma normalize_pass_tds (raw : RawLog) :
    (normalizeGameLog raw).pass_tds =
      zeroFill (mapStat raw.pass_td (mapStat raw.passing_tds raw.pass_tds)) := rfl

/-- C9: normalizeGameLog copies an alternate stat field onto its canonical
field only when the canonical field is absent or null (a present canonical
value is never overwritten — first five conjuncts), copies a numeric
alternate value when the canonical field is absent or null (next six
conjuncts, including the pass_td fallback behind passing_tds), sets a
field that is still absent or null after mapping — its alternates being
absent or null too — to zero exactly (next five conjuncts), and so leaves
every one of the five tracked fields defined (last five conjuncts). -/
theorem c9_normalizeGameLog_mapping (raw : RawLog) :
    (∀ v : ℚ, raw.pass_yards = some (some v) →
      (normalizeGameLog raw).pass_yards = some (some v)) ∧
    (∀ v : ℚ, raw.rush_yards = some (some v) →
      (normalizeGameLog raw).rush_yards = some (some v)) ∧
    (∀ v : ℚ, raw.rec_yards = some (some v) →
      (normalizeGameLog raw).rec_yards = some (some v)) ∧
    (∀ v : ℚ, raw.receptions = some (some v) →
      (normalizeGameLog raw).receptions = some (some v)) ∧
    (∀ v : ℚ, raw.pass_tds = some (some v) →
      (normalizeGameLog raw).pass_tds = some (some v)) ∧
    (∀ v : ℚ, absentOrNull raw.pass_yards → raw.passing_yards = some (some v) →
      (normalizeGameLog raw).pass_yards = some (some v)) ∧
    (∀ v : ℚ, absentOrNull raw.rush_yards → raw.rushing_yards = some (some v) →
      (normalizeGameLog raw).rush_yards = some (some v)) ∧
    (∀ v : ℚ, absentOrNull raw.rec_yards → raw.receiving_yards = some (some v) →
      (normalizeGameLog raw).rec_yards = some (some v)) ∧
    (∀ v : ℚ, absentOrNull raw.receptions → raw.rec_alt = some (some v) →
      (normalizeGameLog raw).receptions = some (some v)) ∧
    (∀ v : ℚ, absentOrNull raw.pass_tds → raw.passing_tds = some (some v) →
      (normalizeGameLog raw).pass_tds = some (some v)) ∧
    (∀ v : ℚ, absentOrNull raw.pass_tds → absentOrNull raw.passing_tds →
      raw.pass_td = some (some v) →
      (normalizeGameLog raw).pass_tds = some (some v)) ∧
    (absentOrNull raw.pass_yards → absentOrNull raw.passing_yards →
      (normalizeGameLog raw).pass_yards = some (some 0)) ∧
    (absentOrNull raw.rush_yards → absentOrNull raw.rushing_yards →
      (normalizeGameLog raw).rush_yards = some (some 0)) ∧
    (absentOrNull raw.rec_yards → absentOrNull raw.receiving_yards →
      (normalizeGameLog raw).rec_yards = some (some 0)) ∧
    (absentOrNull raw.receptions → absentOrNull raw.rec_alt →
      (normalizeGameLog raw).receptions = some (some 0)) ∧
    (absentOrNull raw.pass_tds → absentOrNull raw.passing_tds →
      absentOrNull raw.pass_td →
      (normalizeGameLog raw).pass_tds = some (some 0)) ∧
    (∃ q, (normalizeGameLog raw).pass_yards = some (some q)) ∧
    (∃ q, (normalizeGameLog raw).rush_yards = some (some q)) ∧
    (∃ q, (normalizeGameLog raw).rec_yards = some (some q)) ∧
    (∃ q, (normalizeGameLog raw).receptions = some (some q)) ∧
    (∃ q, (normalizeGameLog raw).pass_tds = some (some q)) := by
  refine ⟨?_, ?_, ?_, ?_, ?_, ?_, ?_, ?_, ?_, ?_, ?_, ?_, ?_, ?_, ?_, ?_, ?_,
    ?_, ?_, ?_, ?_⟩
  · intro v h; rw [normalize_pass_yards, h, mapStat_of_value, zeroFill_value]
  · intro v h; rw [normalize_rush_yards, h, mapStat_of_value, zeroFill_value]
  · intro v h; rw [normalize_rec_yards, h, mapStat_of_value, zeroFill_value]
  · intro v h; rw [normalize_receptions, h, mapStat_of_value, zeroFill_value]
  · intro v h
    rw [normalize_pass_tds, h, mapStat_of_value, mapStat_of_value, zeroFill_value]
  · intro v h halt
    rw [normalize_pass_yards, halt, mapStat_of_alt_value v h, zeroFill_value]
  · intro v h halt
    rw [normalize_rush_yards, halt, mapStat_of_alt_value v h, zeroFill_value]
  · intro v h halt
    rw [normalize_rec_yards, halt, mapStat_of_alt_value v h, zeroFill_value]
  · intro v h halt
    rw [normalize_receptions, halt, mapStat_of_alt_value v h, zeroFill_value]
  · intro v h halt
    rw [normalize_pass_tds, halt, mapStat_of_alt_value v h, mapStat_of_value,
      zeroFill_value]
  · intro v h hptds halt
    rw [normalize_pass_tds, halt,
      mapStat_of_alt_value v (mapStat_absentOrNull h hptds), zeroFill_value]
  · intro h halt
    rw [normalize_pass_yards, zeroFill_of_absentOrNull (mapStat_absentOrNull h halt)]
  · intro h halt
    rw [normalize_rush_yards, zeroFill_of_absentOrNull (mapStat_absentOrNull h halt)]
  · intro h halt
    rw [normalize_rec_yards, zeroFill_of_absentOrNull (mapStat_absentOrNull h halt)]
  · intro h halt
    rw [normalize_receptions, zeroFill_of_absentOrNull (mapStat_absentOrNull h halt)]
  · intro h hptds hptd
    rw [normalize_pass_tds, zeroFill_of_absentOrNull
      (mapStat_absentOrNull (mapStat_absentOrNull h hptds) hptd)]
  · rw [normalize_pass_yards]; exact zeroFill_defined _
  · rw [normalize_rush_yards]; exact zeroFill_defined _
  · rw [normalize_rec_yards]; exact zeroFill_defined _
  · rw [normalize_receptions]; exact zeroFill_defined _
  · rw [normalize_pass_tds]; exact zeroFill_defined _

def c9Raw : RawLog :=
  { pass_yards := some (some 250)
    rushing_yards := some (some 60)
    pass_tds := some none
    pass_td := some (some 2) }

/-- Witness for C9: a raw record with an absent rush_yards plus a numeric
rushing_yards alternate has the alternate copied onto the canonical
field, and its receptions field — absent with an absent alternate — is
set to zero. -/
theorem c9_normalizeGameLog_mapping_witness :
    ((absentOrNull c9Raw.rush_yards ∧ c9Raw.rushing_yards = some (some 60)) ∧
      (normalizeGameLog c9Raw).rush_yards = some (some 60)) ∧
    ((absentOrNull c9Raw.receptions ∧ absentOrNull c9Raw.rec_alt) ∧
      (normalizeGameLog c9Raw).receptions = some (some 0)) :=
  ⟨⟨⟨Or.inl rfl, rfl⟩,
    (c9_normalizeGameLog_mapping c9Raw).2.2.2.2.2.2.1 60 (Or.inl rfl) rfl⟩,
   ⟨⟨Or.inl rfl, Or.inl rfl⟩,
    (c9_normalizeGameLog_mapping c9Raw).2.2.2.2.2.2.2.2.2.2.2.2.2.2.1
      (Or.inl rfl) (Or.inl rfl)⟩⟩

lemma snaps_pos_iff (l : GameLog) :
    ((match l.snaps with
      | some s => decide (0 < s)
      | none => false) = true) ↔ ∃ sn, l.snaps = some sn ∧ 0 < sn := by
  cases h : l.snaps <;> simp [h]

lemma mem_teamsWithGames_iff (gameLogs : List GameLog) (week season : ℤ) (t : String) :
    (t ∈ (gameLogs.filterMap (fun log =>
        if log.week = some week ∧ log.season = some season then truthyStr log.team
        else none)).dedup) ↔
      ∃ l ∈ gameLogs, truthyStr l.team = some t ∧ l.week = some week ∧
        l.season = some season := by
  rw [List.mem_dedup, List.mem_filterMap]
  constructor
  · rintro ⟨l, hl, hif⟩
    by_cases hc : l.week = some week ∧ l.season = some season
    · rw [if_pos hc] at hif
      exact ⟨l, hl, hif, hc.1, hc.2⟩
    · rw [if_neg hc] at hif
      exact absurd hif (by simp)
  · rintro ⟨l, hl, ht, hw, hs⟩
    exact ⟨l, hl, by rw [if_pos ⟨hw, hs⟩]; exact ht⟩

/-- C8: isPlayerActive reports hasRecentSnaps true exactly when the player
has at least two games and both of the two most recent (by date,
regardless of week/season) carry a defined positive snap count; the
player is flagged on bye exactly when no log for their (nonempty) team
exists at the given week/season in the full log set; and isActive is the
conjunction of not-on-bye and recent snaps. -/
theorem c8_isPlayerActive_status (gameLogs : List GameLog) (pid : String) (week season : ℤ) :
    (isPlayerActive gameLogs pid week season).isActive =
      (!(isPlayerActive gameLogs pid week season).isOnBye &&
        (isPlayerActive gameLogs pid week season).hasRecentSnaps) ∧
    ((isPlayerActive gameLogs pid week season).hasRecentSnaps = true ↔
      (2 ≤ (List.insertionSort dateDescRel
          (gameLogs.filter (fun log => log.playerId = pid))).length ∧
        ∀ l ∈ (List.insertionSort dateDescRel
          (gameLogs.filter (fun log => log.playerId = pid))).take 2,
          ∃ sn, l.snaps = some sn ∧ 0 < sn)) ∧
    (∀ t : String, gameLogs.filter (fun log => log.playerId = pid) ≠ [] →
      (gameLogs.filter (fun log => log.playerId = pid)).headI.team = some t →
      t ≠ "" →
      ((isPlayerActive gameLogs pid week season).isOnBye = true ↔
        ¬ ∃ l ∈ gameLogs, truthyStr l.team = some t ∧ l.week = some week ∧
          l.season = some season)) := by
  refine ⟨?_, ?_, ?_⟩
  · unfold isPlayerActive
    by_cases hpl : (gameLogs.filter (fun log => log.playerId = pid)).length = 0
    · rw [if_pos hpl]
      rfl
    · rw [if_neg hpl]
  · unfold isPlayerActive
    by_cases hpl : (gameLogs.filter (fun log => log.playerId = pid)).length = 0
    · rw [if_pos hpl]
      have hnil : gameLogs.filter (fun log => log.playerId = pid) = [] :=
        List.length_eq_zero.mp hpl
      simp [hnil]
    · rw [if_neg hpl]
      show hasSnapsInLastNGames gameLogs pid 2 = true ↔ _
      unfold hasSnapsInLastNGames
      show (if (List.take 2 (List.insertionSort dateDescRel
          (gameLogs.filter (fun log => log.playerId = pid)))).length < 2 then false
        else (List.take 2 (List.insertionSort dateDescRel
          (gameLogs.filter (fun log => log.playerId = pid)))).all fun log =>
            match log.snaps with
            | some s => decide (0 < s)
            | none => false) = true ↔ _
      rw [List.length_take]
      by_cases hlen : 2 ≤ (List.insertionSort dateDescRel
          (gameLogs.filter (fun log => log.playerId = pid))).length
      · rw [if_neg (by omega)]
        rw [List.all_eq_true]
        constructor
        · intro h
          exact ⟨hlen, fun l hl => (snaps_pos_iff l).mp (h l hl)⟩
        · intro h l hl
          exact (snaps_pos_iff l).mpr (h.2 l hl)
      · rw [if_pos (by omega)]
        exact iff_of_false (by simp) (fun h => hlen h.1)
  · intro t hne hteam ht
    unfold isPlayerActive
    have hpl : ¬ (gameLogs.filter (fun log => log.playerId = pid)).length = 0 := by
      intro h0
      exact hne (List.length_eq_zero.mp h0)
    rw [if_neg hpl]
    show (match truthyStr ((gameLogs.filter (fun log => log.playerId = pid)).headI.team) with
      | some t' => decide (t' ∈ getByeWeekTeams gameLogs week season)
      | none => false) = true ↔ _
    rw [hteam]
    have htr : truthyStr (some t) = some t := by simp [truthyStr, ht]
    rw [htr]
    simp only [decide_eq_true_eq]
    unfold getByeWeekTeams
    rw [List.mem_filter]
    have hall : t ∈ (gameLogs.filterMap (fun log => truthyStr log.team)).dedup := by
      obtain ⟨x, xs, hfx⟩ := List.exists_cons_of_ne_nil hne
      have hxmem : x ∈ gameLogs.filter (fun log => log.playerId = pid) := by
        rw [hfx]; exact List.mem_cons_self x xs
      have hxlogs : x ∈ gameLogs := (List.mem_filter.mp hxmem).1
      have hxteam : x.team = some t := by
        rw [hfx] at hteam
        exact hteam
      rw [List.mem_dedup, List.mem_filterMap]
      exact ⟨x, hxlogs, by rw [hxteam]; exact htr⟩
    constructor
    · rintro ⟨_, hdec⟩
      rw [decide_eq_true_eq] at hdec
      rw [← mem_teamsWithGames_iff gameLogs week season t]
      exact hdec
    · intro hnex
      refine ⟨hall, ?_⟩
      rw [decide_eq_true_eq]
      rw [← mem_teamsWithGames_iff gameLogs week season t] at hnex
      exact hnex

def c8Logs : List GameLog :=
  [ { playerId := "p1"
      gameDate := "2024-09-08"
      dateTime := 1
      week := some 1
      season := some 2024
      team := some "KC"
      snaps := some 50 }
  , { playerId := "p1"
      gameDate := "2024-09-15"
      dateTime := 2
      week := some 2
      season := some 2024
      team := some "KC"
      snaps := some 50 } ]

/-- Witness for C8: a two-game player whose team has no week-3 log is on
bye in week 3. -/
theorem c8_isPlayerActive_status_witness :
    (c8Logs.filter (fun log => log.playerId = "p1") ≠ [] ∧
      (c8Logs.filter (fun log => log.playerId = "p1")).headI.team = some "KC" ∧
      "KC" ≠ "") ∧
    ((isPlayerActive c8Logs "p1" 3 2024).isOnBye = true ↔
      ¬ ∃ l ∈ c8Logs, truthyStr l.team = some "KC" ∧ l.week = some (3 : ℤ) ∧
        l.season = some (2024 : ℤ)) :=
  ⟨⟨by decide, by decide, by decide⟩,
    (c8_isPlayerActive_status c8Logs "p1" 3 2024).2.2 "KC" (by decide) (by decide)
      (by decide)⟩

/-- C6: a player whose average per-game touches over the selected most
recent games falls below minTouchesPerGame yields no legs at all; and a
quarterback (a position with no applicable touches proxy) is assigned the
sentinel average 100, so the filter never triggers for any sensible
threshold (minTouchesPerGame ≤ 100, e.g. the default 5). -/
theorem c6_touches_filter (playerId : String) (playerName : Option String)
    (gameLogs : List GameLog) (lastN : ℕ) (minProbability : ℚ)
    (minSampleSize : ℕ) (minTouchesPerGame : ℚ) :
    (calculateAverageTouchesPerGame (sortedLogsFor gameLogs lastN) <
        minTouchesPerGame →
      generateLegs playerId playerName gameLogs lastN minProbability
        minSampleSize minTouchesPerGame = []) ∧
    ((sortedLogsFor gameLogs lastN).headI.position.map jsToUpper =
        some "QB" →
      minTouchesPerGame ≤ 100 →
      ¬ calculateAverageTouchesPerGame (sortedLogsFor gameLogs lastN) <
        minTouchesPerGame) := by
  constructor
  · intro h
    unfold generateLegs
    rw [if_pos h]
  · intro hq h100
    have hlen : ¬ (sortedLogsFor gameLogs lastN).length = 0 := by
      intro h0
      rw [List.length_eq_zero.mp h0] at hq
      simp [List.headI] at hq
    have havg : calculateAverageTouchesPerGame (sortedLogsFor gameLogs lastN) = 100 := by
      unfold calculateAverageTouchesPerGame
      rw [if_neg hlen, if_pos hq]
    rw [havg]
    exact not_lt.mpr h100

def c6WrLog : GameLog :=
  { playerId := "p1"
    gameDate := "2024-09-08"
    dateTime := 1
    position := some "WR"
    targets := some 0
    receptions := some 0 }

def c6QbLog : GameLog :=
  { playerId := "p2"
    gameDate := "2024-09-08"
    dateTime := 1
    position := some "QB"
    pass_yards := some 300 }

/-- Witness for C6: a zero-target receiver is filtered out entirely, while
a quarterback passes the touches filter at the default threshold. -/
theorem c6_touches_filter_witness :
    (calculateAverageTouchesPerGame (sortedLogsFor [c6WrLog] 5) < 5 ∧
      generateLegs "p1" none [c6WrLog] 5 (80 / 100) 6 5 = []) ∧
    ((sortedLogsFor [c6QbLog] 5).headI.position.map jsToUpper = some "QB" ∧
      (5 : ℚ) ≤ 100 ∧
      ¬ calculateAverageTouchesPerGame (sortedLogsFor [c6QbLog] 5) < 5) :=
  ⟨⟨by decide,
    (c6_touches_filter "p1" none [c6WrLog] 5 (80 / 100) 6 5).1 (by decide)⟩,
   ⟨by decide, by decide,
    (c6_touches_filter "p2" none [c6QbLog] 5 (80 / 100) 6 5).2 (by decide)
      (by decide)⟩⟩

/-- The threshold list STAT_THRESHOLDS declares for a statistic. -/
def statThresholdsOf : StatType → List ℚ
  | .pass_yards => [150, 175, 200, 225]
  | .rush_yards => [25, 40, 50, 60]
  | .rec_yards => [25, 40, 50, 60]
  | .receptions => [2, 3, 4, 5]
  | .pass_tds => [1]

lemma STAT_THRESHOLDS_snd : ∀ p ∈ STAT_THRESHOLDS, p.2 = statThresholdsOf p.1 := by
  decide

lemma STAT_THRESHOLDS_sorted : ∀ p ∈ STAT_THRESHOLDS, p.2.Pairwise (· < ·) := by
  decide

lemma STAT_THRESHOLDS_fst_nodup : (STAT_THRESHOLDS.map Prod.fst).Nodup := by
  decide

lemma nodup_map_filterMap {α β γ : Type} (L : List α) (f : α → Option β)
    (g : β → γ) (k : α → γ)
    (hfg : ∀ a ∈ L, ∀ b, f a = some b → g b = k a)
    (hL : (L.map k).Nodup) : ((L.filterMap f).map g).Nodup := by
  induction L with
  | nil => simp
  | cons a L ih =>
    rw [List.filterMap_cons]
    rw [List.map_cons, List.nodup_cons] at hL
    cases hfa : f a with
    | none => exact ih (fun x hx b hb => hfg x (List.mem_cons_of_mem a hx) b hb) hL.2
    | some b =>
      rw [List.map_cons, List.nodup_cons]
      refine ⟨?_, ih (fun x hx c hc => hfg x (List.mem_cons_of_mem a hx) c hc) hL.2⟩
      intro hmem
      obtain ⟨c, hc, hgc⟩ := List.mem_map.mp hmem
      obtain ⟨a', ha', hfa'⟩ := List.mem_filterMap.mp hc
      have h1 : g c = k a' := hfg a' (List.mem_cons_of_mem a ha') c hfa'
      have h2 : g b = k a := hfg a (List.mem_cons_self a L) b hfa
      apply hL.1
      rw [← h2, ← hgc, h1]
      exact List.mem_map.mpr ⟨a', ha', rfl⟩

lemma find?_first_of_sorted {p : ℚ → Bool} {t : ℚ} :
    ∀ {ths : List ℚ}, ths.Pairwise (· < ·) → ths.find? p = some t →
      p t = true ∧ ∀ u ∈ ths, u < t → p u = false := by
  intro ths
  induction ths with
  | nil => intro _ h; exact absurd h (by simp)
  | cons a rest ih =>
    intro hsort hfind
    rw [List.pairwise_cons] at hsort
    cases hpa : p a with
    | true =>
      rw [List.find?_cons_of_pos _ hpa] at hfind
      obtain rfl : a = t := by injection hfind
      refine ⟨hpa, ?_⟩
      intro u hu hlt
      rcases List.mem_cons.mp hu with rfl | hu'
      · exact absurd hlt (lt_irrefl u)
      · exact absurd hlt (not_lt.mpr (le_of_lt (hsort.1 u hu')))
    | false =>
      rw [List.find?_cons_of_neg _ (by simp [hpa])] at hfind
      obtain ⟨hpt, hrest⟩ := ih hsort.2 hfind
      refine ⟨hpt, ?_⟩
      intro u hu hlt
      rcases List.mem_cons.mp hu with rfl | hu'
      · exact hpa
      · exact hrest u hu' hlt

/-- C3: generateLegs never emits two legs for the same (playerId,
statType) pair, and each emitted leg carries the first (hence, the
threshold lists being strictly ascending, the lowest) threshold of its
statistic that passes the acceptance test (sample size, smoothed
probability, nonempty values); every strictly lower declared threshold
fails the test. -/
theorem c3_one_leg_per_stat_lowest_threshold (playerId : String) (playerName : Option String)
    (gameLogs : List GameLog) (lastN : ℕ) (minProbability : ℚ)
    (minSampleSize : ℕ) (minTouchesPerGame : ℚ) :
    ((generateLegs playerId playerName gameLogs lastN minProbability
        minSampleSize minTouchesPerGame).map
      (fun l => (l.playerId, l.statType))).Nodup ∧
    ∀ l ∈ generateLegs playerId playerName gameLogs lastN minProbability
        minSampleSize minTouchesPerGame,
      legQualifies (sortedLogsFor gameLogs lastN) minProbability minSampleSize
        l.statType l.threshold = true ∧
      ∀ u ∈ statThresholdsOf l.statType, u < l.threshold →
        legQualifies (sortedLogsFor gameLogs lastN) minProbability minSampleSize
          l.statType u = false := by
  unfold generateLegs
  by_cases hT : calculateAverageTouchesPerGame (sortedLogsFor gameLogs lastN) <
      minTouchesPerGame
  · rw [if_pos hT]
    exact ⟨List.nodup_nil, fun l hl => absurd hl (List.not_mem_nil l)⟩
  · rw [if_neg hT]
    constructor
    · have hperm := List.perm_insertionSort legSortRel
        (legsForStats playerId playerName (sortedLogsFor gameLogs lastN)
          minProbability minSampleSize)
      rw [(hperm.map (fun l => (l.playerId, l.statType))).nodup_iff]
      unfold legsForStats
      apply nodup_map_filterMap STAT_THRESHOLDS _ _ (fun p => (playerId, p.1))
      · intro p hp b hb
        by_cases hsuff : hasSufficientStatData (sortedLogsFor gameLogs lastN) p.1 4 = true
        · rw [if_pos hsuff] at hb
          obtain ⟨t, hfind, hbuild⟩ := Option.map_eq_some'.mp hb
          rw [← hbuild]
          rfl
        · rw [if_neg hsuff] at hb
          exact absurd hb (by simp)
      · have h1 := STAT_THRESHOLDS_fst_nodup
        have : STAT_THRESHOLDS.map (fun p => (playerId, p.1)) =
            (STAT_THRESHOLDS.map Prod.fst).map (fun st => (playerId, st)) := by
          rw [List.map_map]
          rfl
        rw [this]
        exact h1.map (fun a b h => by injection h)
    · intro l hl
      have hl' : l ∈ legsForStats playerId playerName
          (sortedLogsFor gameLogs lastN) minProbability minSampleSize :=
        (List.mem_insertionSort _).mp hl
      obtain ⟨p, hp, hfp⟩ := List.mem_filterMap.mp hl'
      by_cases hsuff : hasSufficientStatData (sortedLogsFor gameLogs lastN) p.1 4 = true
      · rw [if_pos hsuff] at hfp
        obtain ⟨t, hfind, hbuild⟩ := Option.map_eq_some'.mp hfp
        subst hbuild
        have hres := find?_first_of_sorted (STAT_THRESHOLDS_sorted p hp) hfind
        show legQualifies _ _ _ p.1 t = true ∧ ∀ u ∈ statThresholdsOf p.1, u < t → _
        rw [← STAT_THRESHOLDS_snd p hp]
        exact hres
      · rw [if_neg hsuff] at hfp
        exact absurd hfp (by simp)

def c3Logs : List GameLog :=
  [ { playerId := "p1", gameDate := "2024-09-29", dateTime := 4,
      position := some "WR", targets := some 0, receptions := some 5 }
  , { playerId := "p1", gameDate := "2024-09-22", dateTime := 3,
      position := some "WR", targets := some 0, receptions := some 5 }
  , { playerId := "p1", gameDate := "2024-09-15", dateTime := 2,
      position := some "WR", targets := some 0, receptions := some 5 }
  , { playerId := "p1", gameDate := "2024-09-08", dateTime := 1,
      position := some "WR", targets := some 0, receptions := some 5 } ]

def c3Leg : Leg := buildLeg "p1" none (sortedLogsFor c3Logs 4) .receptions 2




lemma c3_hq : legQualifies (sortedLogsFor c3Logs 4) 0 1 .receptions 2 = true := by
  unfold legQualifies
  rw [decide_eq_true_eq]
  norm_num [calculateProbability, statValues, GameLog.statGet, sortedLogsFor,
    List.insertionSort, List.orderedInsert, dateDescRel,
    calculateStandardDeviationSq, DEFAULT_BETA_A, DEFAULT_BETA_B, c3Logs,
    List.filterMap_cons, List.filter_cons, List.cons_ne_nil]

lemma c3_mem : c3Leg ∈ generateLegs "p1" none c3Logs 4 0 1 0 := by
  unfold generateLegs
  rw [if_neg (by decide)]
  apply (List.mem_insertionSort _).mpr
  show c3Leg ∈ STAT_THRESHOLDS.filterMap _
  apply List.mem_filterMap.mpr
  refine ⟨(.receptions, [2, 3, 4, 5]), by decide, ?_⟩
  show (if hasSufficientStatData (sortedLogsFor c3Logs 4) StatType.receptions 4 then
      ((List.find? (legQualifies (sortedLogsFor c3Logs 4) 0 1 StatType.receptions)
        [2, 3, 4, 5]).map (buildLeg "p1" none (sortedLogsFor c3Logs 4) StatType.receptions))
    else none) = some c3Leg
  rw [if_pos (by decide), List.find?_cons_of_pos _ c3_hq]
  rfl

/-- Witness for C3: a four-game receiver whose receptions leg is accepted
at the lowest threshold 2. -/
theorem c3_one_leg_per_stat_lowest_threshold_witness :
    c3Leg ∈ generateLegs "p1" none c3Logs 4 0 1 0 ∧
    (legQualifies (sortedLogsFor c3Logs 4) 0 1 c3Leg.statType c3Leg.threshold = true ∧
      ∀ u ∈ statThresholdsOf c3Leg.statType, u < c3Leg.threshold →
        legQualifies (sortedLogsFor c3Logs 4) 0 1 c3Leg.statType u = false) :=
  ⟨c3_mem, (c3_one_leg_per_stat_lowest_threshold "p1" none c3Logs 4 0 1 0).2 c3Leg c3_mem⟩

lemma noDupGameKeysFrom_sound :
    ∀ (legs : List Leg) (seen : List String),
      noDupGameKeysFrom legs seen = true →
      (legs.map gameKey).Nodup ∧ ∀ l ∈ legs, gameKey l ∉ seen := by
  intro legs
  induction legs with
  | nil => intro seen _; exact ⟨List.nodup_nil, fun l hl => absurd hl (List.not_mem_nil l)⟩
  | cons leg rest ih =>
    intro seen h
    unfold noDupGameKeysFrom at h
    by_cases hmem : gameKey leg ∈ seen
    · rw [if_pos hmem] at h
      exact absurd h (by simp)
    · rw [if_neg hmem] at h
      obtain ⟨hnd, hseen⟩ := ih (gameKey leg :: seen) h
      refine ⟨?_, ?_⟩
      · rw [List.map_cons, List.nodup_cons]
        refine ⟨?_, hnd⟩
        intro hk
        obtain ⟨l', hl', hkey⟩ := List.mem_map.mp hk
        exact (hseen l' hl') (hkey ▸ List.mem_cons_self _ _)
      · intro l hl
        rcases List.mem_cons.mp hl with rfl | hl'
        · exact hmem
        · exact fun hc => (hseen l hl') (List.mem_cons_of_mem _ hc)

lemma isValidParlay_sound {legs : List Leg} {legCount : ℕ} {allowSameGame
    allowSameTeamStack : Bool}
    (h : isValidParlay legs legCount allowSameGame allowSameTeamStack = true) :
    legs.length = legCount ∧ (legs.map (fun l => l.playerId)).Nodup ∧
      (allowSameGame = false → (legs.map gameKey).Nodup) := by
  unfold isValidParlay at h
  by_cases h1 : legs.length ≠ legCount
  · rw [if_pos h1] at h; exact absurd h (by simp)
  · rw [if_neg h1] at h
    push_neg at h1
    by_cases h2 : ¬ (legs.map (fun leg => leg.playerId)).Nodup
    · rw [if_pos h2] at h; exact absurd h (by simp)
    · rw [if_neg h2] at h
      push_neg at h2
      refine ⟨h1, h2, ?_⟩
      intro hasg
      subst hasg
      by_cases h3 : ¬ noDupGameKeysFrom legs [] = true
      · rw [if_pos (by simpa using h3)] at h
        exact absurd h (by simp)
      · push_neg at h3
        exact (noDupGameKeysFrom_sound legs [] h3).1

lemma mem_generateParlays_sound {candidateLegs : List Leg}
    {options : ParlayOptions} {p : Parlay}
    (hp : p ∈ generateParlays candidateLegs options) :
    ∃ current,
      isValidParlay current (legCountOf options) (allowSameGameOf options)
        (options.allowSameTeamStack.getD false) = true ∧ p.legs = current := by
  unfold generateParlays at hp
  obtain ⟨pair, hpair, hfst⟩ := List.mem_map.mp hp
  have hpair' := (List.mem_insertionSort _).mp hpair
  obtain ⟨parlay, hparlay, hpe⟩ := List.mem_map.mp hpair'
  obtain ⟨current, hcur, hpo⟩ := List.mem_map.mp hparlay
  obtain ⟨hcombo, hvalid⟩ := List.mem_filter.mp hcur
  refine ⟨current, hvalid, ?_⟩
  rw [← hfst, ← hpe]
  show parlay.legs = current
  rw [← hpo]
  rfl

/-- C4: every parlay generateParlays returns has pairwise-distinct player
identifiers and exactly max(2, min(8, requested legCount, default 3))
legs; the clamp keeps any requested count silently inside [2,8] instead of
rejecting it. -/
theorem c4_distinct_players_exact_clamped_count (candidateLegs : List Leg) (options : ParlayOptions) :
    (∀ p ∈ generateParlays candidateLegs options,
      (p.legs.map (fun l => l.playerId)).Nodup ∧
      (p.legs.length : ℤ) = max 2 (min 8 (options.legCount.getD 3))) ∧
    2 ≤ max 2 (min 8 (options.legCount.getD 3)) ∧
    max 2 (min 8 (options.legCount.getD 3)) ≤ 8 := by
  refine ⟨?_, le_max_left 2 _, max_le (by norm_num) (min_le_left 8 _)⟩
  intro p hp
  obtain ⟨current, hvalid, hlegs⟩ := mem_generateParlays_sound hp
  obtain ⟨hlen, hnodup, _⟩ := isValidParlay_sound hvalid
  rw [hlegs]
  refine ⟨hnodup, ?_⟩
  rw [hlen]
  unfold legCountOf
  omega

/-- C5: with allowSameGame unset/false and singleGame unset/false, no
parlay generateParlays returns contains two legs with the same game key
(gameId, falling back to gameDate, then "unknown") — in particular no two
legs share a non-"unknown" game identifier. -/
theorem c5_no_shared_game_key (candidateLegs : List Leg) (options : ParlayOptions)
    (hsg : options.singleGame.getD false = false)
    (hasg : options.allowSameGame.getD false = false) :
    ∀ p ∈ generateParlays candidateLegs options,
      (p.legs.map gameKey).Nodup := by
  intro p hp
  obtain ⟨current, hvalid, hlegs⟩ := mem_generateParlays_sound hp
  obtain ⟨_, _, hgk⟩ := isValidParlay_sound hvalid
  rw [hlegs]
  apply hgk
  unfold allowSameGameOf
  rw [hsg, if_neg (by simp), hasg]

def c4LegA : Leg :=
  { playerId := "p1"
    statType := .rush_yards
    threshold := 25
    smoothedProb := 1
    rawProb := 1
    sampleSize := 6
    gameId := some "gA" }

def c4LegB : Leg :=
  { playerId := "p2"
    statType := .receptions
    threshold := 2
    smoothedProb := 1
    rawProb := 1
    sampleSize := 6
    gameId := some "gB" }

def c4Opts : ParlayOptions := { legCount := some 2, minLegProb := some 0 }

def c4Parlay : Parlay := parlayOf [c4LegA, c4LegB]

lemma c4_mem : c4Parlay ∈ generateParlays [c4LegA, c4LegB] c4Opts := by
  unfold generateParlays
  apply List.mem_map.mpr
  refine ⟨(c4Parlay, avgLegProb c4Parlay.legs), ?_, rfl⟩
  apply (List.mem_insertionSort _).mpr
  apply List.mem_map.mpr
  refine ⟨c4Parlay, ?_, rfl⟩
  apply List.mem_map.mpr
  refine ⟨[c4LegA, c4LegB], ?_, rfl⟩
  apply List.mem_filter.mpr
  exact ⟨by decide, by decide⟩

/-- Witness for C4: two unit-probability legs under legCount 2 produce a
parlay with distinct players and two legs. -/
theorem c4_distinct_players_exact_clamped_count_witness :
    c4Parlay ∈ generateParlays [c4LegA, c4LegB] c4Opts ∧
    ((c4Parlay.legs.map (fun l => l.playerId)).Nodup ∧
      (c4Parlay.legs.length : ℤ) = max 2 (min 8 (c4Opts.legCount.getD 3))) :=
  ⟨c4_mem, (c4_distinct_players_exact_clamped_count [c4LegA, c4LegB] c4Opts).1 c4Parlay c4_mem⟩

/-- Witness for C5: the two-leg parlay with distinct gameIds has no
repeated game key. -/
theorem c5_no_shared_game_key_witness :
    (c4Opts.singleGame.getD false = false ∧
      c4Opts.allowSameGame.getD false = false ∧
      c4Parlay ∈ generateParlays [c4LegA, c4LegB] c4Opts) ∧
    (c4Parlay.legs.map gameKey).Nodup :=
  ⟨⟨rfl, rfl, c4_mem⟩,
    c5_no_shared_game_key [c4LegA, c4LegB] c4Opts rfl rfl c4Parlay c4_mem⟩

instance : IsTotal (Parlay × ℚ) parlaySortRel := ⟨by
  intro a b
  unfold parlaySortRel
  rcases lt_trichotomy (b.1.estProbability.getD 0) (a.1.estProbability.getD 0)
    with h | h | h
  · exact Or.inl (Or.inl h)
  · rcases le_total b.2 a.2 with h2 | h2
    · exact Or.inl (Or.inr ⟨h, h2⟩)
    · exact Or.inr (Or.inr ⟨h.symm, h2⟩)
  · exact Or.inr (Or.inl h)⟩

instance : IsTrans (Parlay × ℚ) parlaySortRel := ⟨by
  intro a b c hab hbc
  unfold parlaySortRel at hab hbc ⊢
  rcases hab with h1 | ⟨h1, h1'⟩
  · rcases hbc with h2 | ⟨h2, h2'⟩
    · exact Or.inl (h2.trans h1)
    · exact Or.inl (by rw [h2]; exact h1)
  · rcases hbc with h2 | ⟨h2, h2'⟩
    · exact Or.inl (by rw [← h1]; exact h2)
    · exact Or.inr ⟨h2.trans h1, h2'.trans h1'⟩⟩

/-- C7: getTopParlays is exactly the topN-prefix of the full
generateParlays output, and that output is sorted by adjusted probability
descending with ties broken by the mean of member smoothed probabilities
descending; in particular topN = 1 yields the single
highest-adjusted-probability parlay. -/
theorem c7_getTopParlays_prefix_of_sorted (candidateLegs : List Leg) (topN : ℕ) (options : ParlayOptions) :
    getTopParlays candidateLegs topN options =
      (generateParlays candidateLegs options).take topN ∧
    (generateParlays candidateLegs options).Pairwise (fun a b =>
      b.estProbability.getD 0 < a.estProbability.getD 0 ∨
        (b.estProbability.getD 0 = a.estProbability.getD 0 ∧
          avgLegProb b.legs ≤ avgLegProb a.legs)) := by
  refine ⟨rfl, ?_⟩
  unfold generateParlays
  rw [List.pairwise_map]
  refine List.Pairwise.imp_of_mem ?_ (List.sorted_insertionSort parlaySortRel _)
  intro a b ha hb hr
  have hma : a.2 = avgLegProb a.1.legs := by
    obtain ⟨parlay, hpar, hxe⟩ := List.mem_map.mp ((List.mem_insertionSort _).mp ha)
    rw [← hxe]
  have hmb : b.2 = avgLegProb b.1.legs := by
    obtain ⟨parlay, hpar, hxe⟩ := List.mem_map.mp ((List.mem_insertionSort _).mp hb)
    rw [← hxe]
  unfold parlaySortRel at hr
  rw [hma, hmb] at hr
  exact hr
